import Mathlib

/-!
Resume upload view (`frontend/src/App.jsx`).

A shallow embedding of the single React component `App`: its five state
cells, the three event handlers (`handleFileChange`, `handleUpload`, the
show-more click) and the JSX it returns, followed by the properties of the
view that are proved about it.

JavaScript strings are sequences of UTF-16 code units; they are modelled as
lists of natural numbers so that `slice`, `includes` and `replace` count the
same positions as the source does.  A value that may be `undefined` is an
`Option`.  An expression that throws is an `Except.error`.
-/

namespace App

/-! ## Strings -/

/-- One UTF-16 code unit of a JavaScript string. -/
abbrev CodeUnit := Nat

/-- JavaScript string: its code units in order. -/
abbrev JSString := List CodeUnit

/-- Code units of one Unicode scalar value (a surrogate pair above the BMP). -/
def utf16Char (c : Char) : List CodeUnit :=
  if c.toNat < 65536 then [c.toNat]
  else [55296 + (c.toNat - 65536) / 1024, 56320 + (c.toNat - 65536) % 1024]

/-- Code units of a string literal. -/
def utf16 (s : String) : JSString :=
  (s.data.map utf16Char).flatten

/-- Model of `String.prototype.includes`: search `pat` at every position of `s`. -/
def includes : JSString → JSString → Bool
  | [], pat => pat.isPrefixOf []
  | c :: cs, pat => pat.isPrefixOf (c :: cs) || includes cs pat

/-- Model of `String.prototype.slice(0, n)`. -/
def slice0 (s : JSString) (n : Nat) : JSString :=
  s.take n

/-- Model of `String.prototype.charAt(0)`: the first code unit, or the empty string. -/
def charAt0 (s : JSString) : JSString :=
  s.take 1

/-- Character class `[A-Z]` of the regular expression in the key cell. -/
def isUpperAZ (c : CodeUnit) : Bool :=
  decide (65 ≤ c) && decide (c ≤ 90)

/-- Model of `key.replace(/([A-Z])/g, ' $1')`: scanning left to right, every
code unit matching `[A-Z]` is replaced by a space followed by itself. -/
def replaceUpper : JSString → JSString
  | [] => []
  | c :: cs => if isUpperAZ c then 32 :: c :: replaceUpper cs else c :: replaceUpper cs

/-- Model of `Array.prototype.join(sep)` on an array of strings. -/
def joinWith (sep : JSString) : List JSString → JSString
  | [] => []
  | [x] => x
  | x :: y :: rest => x ++ sep ++ joinWith sep (y :: rest)

/-- The literal `"NO JOBS FOUND"` tested by the card and by the show-more rule. -/
def SENTINEL : JSString := utf16 "NO JOBS FOUND"

/-! ## Data -/

/-- A file handle taken from the file input. -/
structure File where
  name : JSString
  bytes : List Nat
deriving DecidableEq, Repr

/-- Content of the `selectedFile` cell: `null` initially, `files[0]` afterwards. -/
inductive FileRef where
  | null
  | undefined
  | file (f : File)
deriving DecidableEq, Repr

/-- JavaScript truthiness of the `selectedFile` cell. -/
def FileRef.truthy : FileRef → Bool
  | .file _ => true
  | _ => false

/-- A value of `resume_data`: a string or an array of strings. -/
inductive ResumeValue where
  | scalar (s : JSString)
  | seq (xs : List JSString)
deriving DecidableEq, Repr

/-- The `resume_data` object as `Object.entries` enumerates it. -/
abbrev ResumeData := List (JSString × ResumeValue)

/-- One element of `job_data`; a missing property reads as `undefined`. -/
structure Job where
  title : Option JSString
  company : Option JSString
  location : Option JSString
  type : Option JSString
  mode : Option JSString
  description : Option JSString
  url : Option JSString
deriving DecidableEq, Repr

/-- Body `response.data` of a 2xx answer. -/
structure Response where
  resume_data : Option ResumeData
  job_data : List Job
deriving DecidableEq, Repr

/-- How the awaited `axios.post` settles. -/
inductive Outcome where
  | success (r : Response)
  | failure
deriving DecidableEq, Repr

/-- The request built by `handleUpload`. -/
structure Request where
  url : String
  field : String
  file : File
  contentType : String
deriving DecidableEq, Repr

/-- The five `useState` cells of `App`. -/
structure AppState where
  selectedFile : FileRef
  resumeData : Option ResumeData
  jobData : List Job
  loading : Bool
  jobsToShow : Nat
deriving DecidableEq, Repr

/-- Values given to `useState` on first render. -/
def initialState : AppState :=
  { selectedFile := .null, resumeData := none, jobData := [], loading := false, jobsToShow := 3 }

/-! ## Event handlers -/

/-- Model of `handleFileChange`: `setSelectedFile(event.target.files[0])`. -/
def handleFileChange (s : AppState) (files : List File) : AppState :=
  { s with selectedFile := match files with
      | [] => .undefined
      | f :: _ => .file f }

/-- What one call of `handleUpload` did: the requests sent, the state while the
request was awaited (if one was sent), the number of `console.error` calls and
the state once the handler has finished. -/
structure UploadRun where
  requests : List Request
  inFlight : Option AppState
  logged : Nat
  final : AppState
deriving DecidableEq, Repr

/-- The request of lines 19-25. -/
def mkRequest (f : File) : Request :=
  { url := "http://localhost:8000/upload-resume/", field := "file", file := f,
    contentType := "multipart/form-data" }

/-- State writes made after the `await`: the `try` body or the `catch`, then `finally`. -/
def settle (s : AppState) : Outcome → AppState
  | .success r => { s with resumeData := r.resume_data, jobData := r.job_data, loading := false }
  | .failure => { s with loading := false }

/-- Model of `handleUpload`, the network being the function `post`.  The guard
`if (!selectedFile) return` is taken for `null` and `undefined`, the two values
of the cell that are not a file. -/
def handleUpload (s : AppState) (post : Request → Outcome) : UploadRun :=
  match s.selectedFile with
  | .file f =>
    let s1 := { s with loading := true }
    let out := post (mkRequest f)
    { requests := [mkRequest f], inFlight := some s1,
      logged := (match out with
        | .success _ => 0
        | .failure => 1),
      final := settle s1 out }
  | _ => { requests := [], inFlight := none, logged := 0, final := s }

/-- Click handler of the show-more button: `setJobsToShow(jobsToShow + 3)`. -/
def showMore (s : AppState) : AppState :=
  { s with jobsToShow := s.jobsToShow + 3 }

/-! ## Rendering -/

/-- Exception raised while the component function runs. -/
inductive JSError where
  | typeError
deriving DecidableEq, Repr

/-- One `<tr>` of the resume table: the text of its two cells. -/
structure Row where
  label : JSString
  value : JSString
deriving DecidableEq, Repr

/-- Cell text `Array.isArray(value) ? value.join(", ") : value`. -/
def renderValue : ResumeValue → JSString
  | .seq xs => joinWith (utf16 ", ") xs
  | .scalar s => s

/-- Row built by the callback of `Object.entries(resumeData).map`. -/
def renderRow (e : JSString × ResumeValue) : Row :=
  { label := replaceUpper e.1, value := renderValue e.2 }

/-- The block `resumeData && (<table>...)`: absent for `null`, else its rows. -/
def renderResumeTable : Option ResumeData → Option (List Row)
  | none => none
  | some rd => some (rd.map renderRow)

/-- Children of one job card.  A child that is `undefined` is kept as `none`
(React renders nothing for it). -/
inductive Card where
  | placeholder (headline : JSString) (subtext : Option JSString)
  | normal (badge : Option JSString) (title : JSString)
      (company location : Option JSString) (typeBadge modeBadge : Option JSString)
      (excerpt : JSString) (applyHref : Option JSString)
deriving DecidableEq, Repr

/-- The guard `x && <span>{x}</span>` on an optional string: a badge only when truthy. -/
def badgeOf : Option JSString → Option JSString
  | some (c :: cs) => some (c :: cs)
  | _ => none

/-- Body of the `map` callback, lines 98-134.  Reading `.includes` or `.slice`
of `undefined` throws. -/
def renderCard (job : Job) : Except JSError Card :=
  match job.title with
  | none => .error .typeError
  | some t =>
    if includes t SENTINEL then
      .ok (.placeholder t job.description)
    else
      match job.description with
      | none => .error .typeError
      | some d =>
        .ok (.normal (job.company.map charAt0) t job.company job.location
          (badgeOf job.type) (badgeOf job.mode) (slice0 d 100 ++ utf16 "...") job.url)

/-- Model of `jobs.map(callback)` where the callback may throw: the first
failing element aborts the whole map. -/
def renderCards : List Job → Except JSError (List Card)
  | [] => .ok []
  | j :: js =>
    match renderCard j with
    | .error e => .error e
    | .ok c =>
      match renderCards js with
      | .error e => .error e
      | .ok cs => .ok (c :: cs)

/-- What the job section shows: the grid of cards or the global block. -/
inductive JobSection where
  | grid (cards : List Card)
  | noJobsFound
deriving DecidableEq, Repr

/-- The ternary of lines 85-143. -/
def renderJobSection (jobData : List Job) (jobsToShow : Nat) : Except JSError JobSection :=
  if jobData.length > 0 then
    match renderCards (jobData.take jobsToShow) with
    | .error e => .error e
    | .ok cs => .ok (.grid cs)
  else
    .ok .noJobsFound

/-- Model of `jobData.some(job => !job.title.includes("NO JOBS FOUND"))`: stops
at the first element for which the callback is true. -/
def someReal : List Job → Except JSError Bool
  | [] => .ok false
  | j :: js =>
    match j.title with
    | none => .error .typeError
    | some t => if !includes t SENTINEL then .ok true else someReal js

/-- The condition of line 146; `&&` evaluates its right operand only when the left is true. -/
def renderShowMore (jobData : List Job) (jobsToShow : Nat) : Except JSError Bool :=
  if jobData.length > jobsToShow then someReal jobData else .ok false

/-- What `App` returns, reduced to the parts that depend on the state. -/
structure View where
  uploadDisabled : Bool
  uploadLabel : String
  resumeTable : Option (List Row)
  jobs : JobSection
  showMoreButton : Bool
deriving DecidableEq, Repr

/-- The `return` expression of `App`, evaluated top to bottom. -/
def render (s : AppState) : Except JSError View :=
  match renderJobSection s.jobData s.jobsToShow with
  | .error e => .error e
  | .ok sec =>
    match renderShowMore s.jobData s.jobsToShow with
    | .error e => .error e
    | .ok b =>
      .ok { uploadDisabled := s.loading,
            uploadLabel := if s.loading then "Uploading..." else "Upload Resume",
            resumeTable := renderResumeTable s.resumeData,
            jobs := sec,
            showMoreButton := b }

/-! ## Auxiliary definitions used to state the properties -/

/-- A listing with the two required strings present and a title without the marker. -/
def Job.isReal (j : Job) : Bool :=
  match j.title, j.description with
  | some t, some _ => !includes t SENTINEL
  | _, _ => false

/-- The excerpt paragraph of a card, when it has one. -/
def Card.excerptText : Card → Option JSString
  | .normal _ _ _ _ _ _ e _ => some e
  | .placeholder _ _ => none

/-- Label text as the specification words it: a space before each `[A-Z]`
letter that is not the first character, nothing else changed. -/
def humanizeInternal (key : JSString) : JSString :=
  (key.enum.map fun p => if p.1 ≠ 0 ∧ isUpperAZ p.2 = true then [32, p.2] else [p.2]).flatten

/-! ## Concrete inputs -/

/-- A resume file picked by the user. -/
def cvFile : File := { name := utf16 "cv.pdf", bytes := [37, 80, 68, 70] }

/-- A real listing with the given title. -/
def realJob (title : String) : Job :=
  { title := some (utf16 title), company := some (utf16 "Acme"), location := some (utf16 "Pune"),
    type := some (utf16 "Full-time"), mode := none,
    description := some (utf16 "Build and ship the product."), url := some (utf16 "https://acme.test/job") }

/-- Five real listings. -/
def fiveJobs : List Job :=
  [realJob "Engineer 1", realJob "Engineer 2", realJob "Engineer 3", realJob "Engineer 4",
   realJob "Engineer 5"]

/-- A state showing earlier results, a file selected, after one show-more click. -/
def shownState : AppState :=
  { selectedFile := .file cvFile,
    resumeData := some [(utf16 "name", .scalar (utf16 "Asha"))],
    jobData := fiveJobs, loading := false, jobsToShow := 6 }

/-- The same results with the file input cleared. -/
def clearedState : AppState := handleFileChange shownState []

/-- A network on which every request fails. -/
def offline : Request → Outcome := fun _ => .failure

/-- A server that answers every request with the same body. -/
def answering (r : Response) : Request → Outcome := fun _ => .success r

/-- The response of the resume-table example. -/
def sampleResponse : Response :=
  { resume_data := some [(utf16 "a", .scalar (utf16 "x")),
                         (utf16 "tags", .seq [utf16 "p", utf16 "q"])],
    job_data := [] }

/-- The placeholder item of the specification's example, with every other field set. -/
def demoSentinel : Job :=
  { title := some (utf16 "NO JOBS FOUND (demo)"), company := some (utf16 "Acme"),
    location := some (utf16 "Pune"), type := some (utf16 "Full-time"),
    mode := some (utf16 "Remote"), description := some (utf16 "Try other skills."),
    url := some (utf16 "https://acme.test/none") }

/-- A placeholder item that carries nothing but its title. -/
def bareSentinel : Job :=
  { title := some (utf16 "NO JOBS FOUND"), company := none, location := none, type := none,
    mode := none, description := none, url := none }

/-- A real listing without a description. -/
def noDescriptionJob : Job :=
  { title := some (utf16 "Engineer"), company := none, location := none, type := none,
    mode := none, description := none, url := none }

/-- First render after a response whose only item is `bareSentinel`. -/
def bareSentinelState : AppState :=
  { initialState with jobData := [bareSentinel] }

/-- First render after a response with one good item and one without description. -/
def noDescriptionState : AppState :=
  { initialState with jobData := [realJob "Engineer 1", noDescriptionJob] }

/-- First render of the five listings. -/
def fiveState : AppState :=
  { initialState with jobData := fiveJobs }

/-- A forty-unit description. -/
def fortyDescription : JSString := List.replicate 40 120

/-- A real listing whose description has exactly forty code units. -/
def fortyJob : Job :=
  { title := some (utf16 "Engineer"), company := some (utf16 "Acme"), location := none,
    type := none, mode := none, description := some fortyDescription, url := some (utf16 "u") }

/-- Four items, the first a placeholder, the others real. -/
def mixedJobs : List Job :=
  [demoSentinel, realJob "Engineer 1", realJob "Engineer 2", realJob "Engineer 3"]

/-! ## Basic facts about the string operations -/

theorem includes_iff_isInfix (s pat : JSString) : includes s pat = true ↔ pat <:+: s := by
  induction s with
  | nil =>
    cases pat <;> simp [includes, List.isPrefixOf]
  | cons c cs ih =>
    rw [includes, Bool.or_eq_true, ih, List.isPrefixOf_iff_prefix, List.infix_cons_iff]

theorem includes_eq_false_iff (s pat : JSString) : includes s pat = false ↔ ¬ pat <:+: s := by
  rw [← includes_iff_isInfix, Bool.not_eq_true]

theorem joinWith_eq_intercalate (sep : JSString) (xs : List JSString) :
    joinWith sep xs = List.intercalate sep xs := by
  induction xs with
  | nil => rfl
  | cons x rest ih =>
    cases rest with
    | nil => simp [joinWith, List.intercalate]
    | cons y more =>
      rw [joinWith, ih]
      simp [List.intercalate, List.intersperse]

/-! ## Upload controller -/

/-- C1: `handleUpload` changes results only on success.  (a) With no file
selected (`null` or `undefined`, in particular after `handleFileChange` with an
empty file list) no request is issued and the state is returned unchanged.
(b) With a file selected and a failing request, `resumeData` and `jobData` keep
their values and `loading` ends `false`. -/
theorem handleUpload_changes_results_only_on_success (s : AppState) (post : Request → Outcome) :
    (s.selectedFile.truthy = false →
      (handleUpload s post).requests = [] ∧
      (handleUpload s post).final.loading = s.loading ∧
      (handleUpload s post).final.resumeData = s.resumeData ∧
      (handleUpload s post).final.jobData = s.jobData ∧
      (handleUpload s post).final.jobsToShow = s.jobsToShow) ∧
    ((handleFileChange s []).selectedFile.truthy = false) ∧
    (∀ f, s.selectedFile = .file f → post (mkRequest f) = .failure →
      (handleUpload s post).final.resumeData = s.resumeData ∧
      (handleUpload s post).final.jobData = s.jobData ∧
      (handleUpload s post).final.loading = false) := by
  refine ⟨?_, rfl, ?_⟩
  · intro h
    cases hs : s.selectedFile with
    | null => simp [handleUpload, hs]
    | undefined => simp [handleUpload, hs]
    | file f => simp [hs, FileRef.truthy] at h
  · intro f hf hp
    simp [handleUpload, hf, hp, settle]

/-- C1 at concrete inputs: the cleared state sends nothing and keeps its
results; the offline upload keeps the results and ends with `loading = false`. -/
theorem handleUpload_changes_results_only_on_success_witness :
    ((handleUpload clearedState offline).requests = [] ∧
      (handleUpload clearedState offline).final.loading = clearedState.loading ∧
      (handleUpload clearedState offline).final.resumeData = clearedState.resumeData ∧
      (handleUpload clearedState offline).final.jobData = clearedState.jobData ∧
      (handleUpload clearedState offline).final.jobsToShow = clearedState.jobsToShow) ∧
    ((handleUpload shownState offline).final.resumeData = shownState.resumeData ∧
      (handleUpload shownState offline).final.jobData = shownState.jobData ∧
      (handleUpload shownState offline).final.loading = false) :=
  ⟨(handleUpload_changes_results_only_on_success clearedState offline).1 rfl,
   (handleUpload_changes_results_only_on_success shownState offline).2.2 cvFile rfl rfl⟩

/-- C9: a successful upload replaces `resumeData` and `jobData` by the
response's `resume_data` and `job_data` whatever they were before, ends with
`loading = false`, and leaves `jobsToShow` and `selectedFile` as they were (no
reset to 3).  Exactly one request, carrying the selected file, is sent. -/
theorem handleUpload_success_replaces_results (s : AppState) (post : Request → Outcome)
    (f : File) (r : Response) (hf : s.selectedFile = .file f)
    (hp : post (mkRequest f) = .success r) :
    (handleUpload s post).final =
      { selectedFile := s.selectedFile, resumeData := r.resume_data, jobData := r.job_data,
        loading := false, jobsToShow := s.jobsToShow } ∧
    (handleUpload s post).requests = [mkRequest f] ∧
    (∀ s2 : AppState, s2.selectedFile = .file f →
      (handleUpload s2 post).final.resumeData = (handleUpload s post).final.resumeData ∧
      (handleUpload s2 post).final.jobData = (handleUpload s post).final.jobData) := by
  have key : ∀ s2 : AppState, s2.selectedFile = .file f →
      (handleUpload s2 post).final =
        { selectedFile := s2.selectedFile, resumeData := r.resume_data, jobData := r.job_data,
          loading := false, jobsToShow := s2.jobsToShow } := by
    intro s2 h2
    simp [handleUpload, h2, hp, settle]
  refine ⟨key s hf, ?_, ?_⟩
  · simp [handleUpload, hf]
  · intro s2 h2
    rw [key s2 h2, key s hf]
    exact ⟨rfl, rfl⟩

/-- C9 at a concrete input: uploading from a state that shows five jobs with
`jobsToShow = 6` stores the response and keeps `jobsToShow = 6`. -/
theorem handleUpload_success_replaces_results_witness :
    (handleUpload shownState (answering sampleResponse)).final.resumeData
        = sampleResponse.resume_data ∧
    (handleUpload shownState (answering sampleResponse)).final.jobData = [] ∧
    (handleUpload shownState (answering sampleResponse)).final.loading = false ∧
    (handleUpload shownState (answering sampleResponse)).final.jobsToShow = 6 ∧
    (handleUpload shownState (answering sampleResponse)).final.selectedFile = .file cvFile := by
  have h := (handleUpload_success_replaces_results shownState (answering sampleResponse)
    cvFile sampleResponse rfl rfl).1
  rw [h]
  exact ⟨rfl, rfl, rfl, rfl, rfl⟩

/-! ## Results renderer: helper lemmas -/

theorem renderCards_ok_iff (js : List Job) (cs : List Card) :
    renderCards js = .ok cs ↔ List.Forall₂ (fun j c => renderCard j = .ok c) js cs := by
  induction js generalizing cs with
  | nil =>
    cases cs <;> simp [renderCards]
  | cons j js ih =>
    cases hj : renderCard j with
    | error e =>
      constructor
      · intro h
        simp [renderCards, hj] at h
      · intro h
        cases h with
        | cons h1 _ => rw [hj] at h1; cases h1
    | ok c =>
      cases hjs : renderCards js with
      | error e =>
        constructor
        · intro h
          simp [renderCards, hj, hjs] at h
        · intro h
          cases h with
          | cons _ h2 => rw [← ih, hjs] at h2; cases h2
      | ok cs1 =>
        constructor
        · intro h
          simp [renderCards, hj, hjs] at h
          subst h
          exact List.Forall₂.cons hj ((ih cs1).1 hjs)
        · intro h
          cases h with
          | cons h1 h2 =>
            rw [hj] at h1
            cases h1
            have := (ih _).2 h2
            rw [hjs] at this
            cases this
            simp [renderCards, hj, hjs]

theorem renderCards_error_of_mem (js : List Job) (j : Job) (hj : j ∈ js)
    (he : renderCard j = .error .typeError) : renderCards js = .error .typeError := by
  induction js with
  | nil => cases hj
  | cons a js ih =>
    cases ha : renderCard a with
    | error e => cases e; simp [renderCards, ha]
    | ok c =>
      rcases List.mem_cons.1 hj with h | h
      · subst h; rw [ha] at he; cases he
      · simp [renderCards, ha, ih h]

theorem renderCard_ok_of_isReal (j : Job) (h : j.isReal = true) : ∃ c, renderCard j = .ok c := by
  unfold Job.isReal at h
  cases ht : j.title with
  | none => simp [ht] at h
  | some t =>
    cases hd : j.description with
    | none => simp [ht, hd] at h
    | some d =>
      simp [ht, hd] at h
      refine ⟨.normal (j.company.map charAt0) t j.company j.location (badgeOf j.type)
        (badgeOf j.mode) (slice0 d 100 ++ utf16 "...") j.url, ?_⟩
      simp [renderCard, ht, hd, h]

theorem renderCards_ok_of_forall (js : List Job) (h : ∀ j ∈ js, ∃ c, renderCard j = .ok c) :
    ∃ cs, renderCards js = .ok cs := by
  induction js with
  | nil => exact ⟨[], rfl⟩
  | cons a js ih =>
    obtain ⟨c, hc⟩ := h a (List.mem_cons_self _ _)
    obtain ⟨cs, hcs⟩ := ih (fun j hj => h j (List.mem_cons_of_mem _ hj))
    exact ⟨c :: cs, by simp [renderCards, hc, hcs]⟩

theorem someReal_of_titles (js : List Job) (ht : ∀ j ∈ js, j.title.isSome = true) :
    ∃ b, someReal js = .ok b ∧
      (b = true ↔ ∃ j ∈ js, ∃ t, j.title = some t ∧ includes t SENTINEL = false) := by
  induction js with
  | nil => exact ⟨false, rfl, by simp⟩
  | cons a js ih =>
    obtain ⟨b, hb, hiff⟩ := ih (fun j hj => ht j (List.mem_cons_of_mem _ hj))
    have ha := ht a (List.mem_cons_self _ _)
    cases hta : a.title with
    | none => simp [hta] at ha
    | some t =>
      cases hinc : includes t SENTINEL with
      | false =>
        refine ⟨true, by simp [someReal, hta, hinc], ?_⟩
        simp only [true_iff]
        exact ⟨a, List.mem_cons_self _ _, t, hta, hinc⟩
      | true =>
        refine ⟨b, by simp [someReal, hta, hinc, hb], ?_⟩
        rw [hiff]
        constructor
        · rintro ⟨j, hj, t2, h1, h2⟩
          exact ⟨j, List.mem_cons_of_mem _ hj, t2, h1, h2⟩
        · rintro ⟨j, hj, t2, h1, h2⟩
          rcases List.mem_cons.1 hj with h | h
          · subst h
            rw [hta] at h1
            cases h1
            rw [hinc] at h2
            cases h2
          · exact ⟨j, h, t2, h1, h2⟩

theorem render_ok_inv (s : AppState) (v : View) (h : render s = .ok v) :
    renderJobSection s.jobData s.jobsToShow = .ok v.jobs ∧
    renderShowMore s.jobData s.jobsToShow = .ok v.showMoreButton ∧
    v.resumeTable = renderResumeTable s.resumeData ∧
    v.uploadDisabled = s.loading := by
  unfold render at h
  cases h1 : renderJobSection s.jobData s.jobsToShow with
  | error e => simp [h1] at h
  | ok sec =>
    cases h2 : renderShowMore s.jobData s.jobsToShow with
    | error e => simp [h1, h2] at h
    | ok b =>
      simp [h1, h2] at h
      subst h
      exact ⟨rfl, rfl, rfl, rfl⟩

theorem render_ok_of_sections (s : AppState) (sec : JobSection) (b : Bool)
    (h1 : renderJobSection s.jobData s.jobsToShow = .ok sec)
    (h2 : renderShowMore s.jobData s.jobsToShow = .ok b) :
    ∃ v, render s = .ok v ∧ v.jobs = sec ∧ v.showMoreButton = b ∧
      v.resumeTable = renderResumeTable s.resumeData := by
  refine ⟨{ uploadDisabled := s.loading,
            uploadLabel := if s.loading then "Uploading..." else "Upload Resume",
            resumeTable := renderResumeTable s.resumeData,
            jobs := sec,
            showMoreButton := b }, ?_, rfl, rfl, rfl⟩
  simp [render, h1, h2]

theorem showMore_rendered_iff_aux (jobs : List Job) (n : Nat)
    (ht : ∀ j ∈ jobs, j.title.isSome = true) :
    ∃ b, renderShowMore jobs n = .ok b ∧
      (b = true ↔ (jobs.length > n ∧
        ∃ j ∈ jobs, ∃ t, j.title = some t ∧ includes t SENTINEL = false)) := by
  obtain ⟨b0, hb0, hiff0⟩ := someReal_of_titles jobs ht
  by_cases hlen : jobs.length > n
  · refine ⟨b0, by simp [renderShowMore, hlen, hb0], ?_⟩
    rw [hiff0]
    exact ⟨fun h => ⟨hlen, h⟩, fun h => h.2⟩
  · refine ⟨false, by simp [renderShowMore, hlen], ?_⟩
    constructor
    · intro h; cases h
    · intro h; exact absurd h.1 hlen

/-! ## Results renderer: job cards -/

/-- C4: a job whose title contains `"NO JOBS FOUND"` renders as the placeholder
card, made of the title as headline and the description as subtext and nothing
else, and the card is the same for every value of `company`, `location`,
`type`, `mode` and `url`. -/
theorem sentinel_renders_placeholder (j : Job) (t : JSString) (ht : j.title = some t)
    (hs : SENTINEL <:+: t) :
    renderCard j = .ok (.placeholder t j.description) ∧
    (∀ company location type mode url : Option JSString,
      renderCard { j with company := company, location := location, type := type,
                          mode := mode, url := url } = renderCard j) := by
  have hi : includes t SENTINEL = true := (includes_iff_isInfix t SENTINEL).2 hs
  constructor
  · simp [renderCard, ht, hi]
  · intro company location type mode url
    simp [renderCard, ht, hi]

/-- C4 at the title `"NO JOBS FOUND (demo)"`: the card is the placeholder with
that headline, also once all other fields are removed. -/
theorem sentinel_renders_placeholder_witness :
    renderCard demoSentinel
      = .ok (.placeholder (utf16 "NO JOBS FOUND (demo)") (some (utf16 "Try other skills."))) ∧
    renderCard { demoSentinel with company := none, location := none, type := none,
                                   mode := none, url := none } = renderCard demoSentinel := by
  have h := sentinel_renders_placeholder demoSentinel (utf16 "NO JOBS FOUND (demo)") rfl
    ((includes_iff_isInfix _ _).1 (by decide))
  exact ⟨h.1, h.2 none none none none none⟩

/-- C6: on a normal card the excerpt is the first 100 code units of the
description followed by `"..."`; the marker is there whatever the length, and a
description of at most 100 code units appears in full before it. -/
theorem excerpt_is_slice_then_ellipsis (j : Job) (t d : JSString) (ht : j.title = some t)
    (hn : ¬ SENTINEL <:+: t) (hd : j.description = some d) :
    ∃ c, renderCard j = .ok c ∧
      c.excerptText = some (d.take 100 ++ utf16 "...") ∧
      (∀ e, c.excerptText = some e → utf16 "..." <:+ e ∧ e.length = min 100 d.length + 3) ∧
      (d.length ≤ 100 → c.excerptText = some (d ++ utf16 "...")) := by
  have hi : includes t SENTINEL = false := (includes_eq_false_iff t SENTINEL).2 hn
  refine ⟨.normal (j.company.map charAt0) t j.company j.location (badgeOf j.type)
    (badgeOf j.mode) (slice0 d 100 ++ utf16 "...") j.url, ?_, rfl, ?_, ?_⟩
  · simp [renderCard, ht, hd, hi]
  · intro e he
    simp only [Card.excerptText, slice0, Option.some.injEq] at he
    subst he
    refine ⟨List.suffix_append _ _, ?_⟩
    have h3 : (utf16 "...").length = 3 := by decide
    rw [List.length_append, List.length_take, h3]
  · intro hle
    simp only [Card.excerptText, slice0]
    rw [List.take_of_length_le hle]

/-- C6 at a description of exactly 40 code units: the excerpt is the whole
description followed by `"..."`. -/
theorem excerpt_is_slice_then_ellipsis_witness :
    ∃ c, renderCard fortyJob = .ok c ∧
      c.excerptText = some (fortyDescription ++ utf16 "...") := by
  obtain ⟨c, hc, _, _, hfull⟩ := excerpt_is_slice_then_ellipsis fortyJob (utf16 "Engineer")
    fortyDescription rfl ((includes_eq_false_iff _ _).1 (by decide)) rfl
  exact ⟨c, hc, hfull (by decide)⟩

/-! ## Results renderer: sections -/

/-- C3: when every item has a string title, the show-more button is rendered
exactly when `jobData` is longer than `jobsToShow` and some item of `jobData`,
rendered or not, has a title without `"NO JOBS FOUND"`; so it is absent when
`jobsToShow` reaches the length and when every item is a placeholder. -/
theorem showMore_rendered_iff (jobs : List Job) (n : Nat)
    (ht : ∀ j ∈ jobs, j.title.isSome = true) :
    ∃ b, renderShowMore jobs n = .ok b ∧
      (b = true ↔ (jobs.length > n ∧ ∃ j ∈ jobs, ∃ t, j.title = some t ∧ ¬ SENTINEL <:+: t)) ∧
      (∀ (s : AppState) (v : View), s.jobData = jobs → s.jobsToShow = n → render s = .ok v →
        v.showMoreButton = b) ∧
      (jobs.length ≤ n → b = false) ∧
      ((∀ j ∈ jobs, ∃ t, j.title = some t ∧ SENTINEL <:+: t) → b = false) := by
  obtain ⟨b, hb, hiff0⟩ := showMore_rendered_iff_aux jobs n ht
  have hiff : b = true ↔
      (jobs.length > n ∧ ∃ j ∈ jobs, ∃ t, j.title = some t ∧ ¬ SENTINEL <:+: t) := by
    rw [hiff0]
    constructor
    · rintro ⟨hl, j, hj, t, h1, h2⟩
      exact ⟨hl, j, hj, t, h1, (includes_eq_false_iff t SENTINEL).1 h2⟩
    · rintro ⟨hl, j, hj, t, h1, h2⟩
      exact ⟨hl, j, hj, t, h1, (includes_eq_false_iff t SENTINEL).2 h2⟩
  refine ⟨b, hb, hiff, ?_, ?_, ?_⟩
  · intro s v hs hn hv
    have h2 := (render_ok_inv s v hv).2.1
    rw [hs, hn, hb] at h2
    cases h2
    rfl
  · intro hle
    cases hbv : b with
    | false => rfl
    | true => exact absurd (hiff.1 hbv).1 (Nat.not_lt.2 hle)
  · intro hall
    cases hbv : b with
    | false => rfl
    | true =>
      obtain ⟨-, j, hj, t, h1, h2⟩ := hiff.1 hbv
      obtain ⟨t2, h3, h4⟩ := hall j hj
      rw [h1] at h3
      cases h3
      exact absurd h4 h2

/-- C3 at a list of a placeholder followed by three real listings: with
`jobsToShow = 3` the button is rendered although the hidden fourth item is the
only reason the list is longer. -/
theorem showMore_rendered_iff_witness :
    ∃ b, renderShowMore mixedJobs 3 = .ok b ∧ b = true := by
  obtain ⟨b, hb, _, _, _, _⟩ := showMore_rendered_iff mixedJobs 3 (by decide)
  refine ⟨b, hb, ?_⟩
  have h2 : renderShowMore mixedJobs 3 = .ok true := rfl
  rw [hb] at h2
  cases h2
  rfl

/-- C7: after a successful upload whose `job_data` is empty the view shows the
global "no jobs found" block, no grid and no show-more button, whatever was
shown before.  In general a rendered view has the grid exactly when `jobData`
is non-empty and the block exactly when it is empty, and the view does render
when every item has its title and description. -/
theorem empty_job_list_renders_global_block (s : AppState) (post : Request → Outcome)
    (f : File) (r : Response) (hf : s.selectedFile = .file f)
    (hp : post (mkRequest f) = .success r) (he : r.job_data = []) :
    (∃ v, render (handleUpload s post).final = .ok v ∧ v.jobs = .noJobsFound ∧
      v.showMoreButton = false) ∧
    (∀ (s2 : AppState) (v : View), render s2 = .ok v →
      ((∃ cs, v.jobs = .grid cs) ↔ s2.jobData ≠ []) ∧
      (v.jobs = .noJobsFound ↔ s2.jobData = [])) ∧
    (∀ s2 : AppState, (∀ j ∈ s2.jobData, j.title.isSome = true ∧ j.description.isSome = true) →
      ∃ v, render s2 = .ok v) := by
  refine ⟨?_, ?_, ?_⟩
  · have hj : (handleUpload s post).final.jobData = [] := by
      simp [handleUpload, hf, hp, settle, he]
    exact render_ok_of_sections _ .noJobsFound false
      (by simp [renderJobSection, hj]) (by simp [renderShowMore, hj]) |>.imp
      (fun v h => ⟨h.1, h.2.1, h.2.2.1⟩)
  · intro s2 v hv
    have h1 := (render_ok_inv s2 v hv).1
    unfold renderJobSection at h1
    by_cases hl : s2.jobData.length > 0
    · have hne : s2.jobData ≠ [] := by
        intro h0; rw [h0] at hl; exact absurd hl (by decide)
      rw [if_pos hl] at h1
      cases hc : renderCards (s2.jobData.take s2.jobsToShow) with
      | error e => rw [hc] at h1; cases h1
      | ok cs =>
        rw [hc] at h1
        have hv2 : v.jobs = .grid cs := (Except.ok.inj h1).symm
        rw [hv2]
        exact ⟨⟨fun _ => hne, fun _ => ⟨cs, rfl⟩⟩, ⟨fun h => (by cases h), fun h => absurd h hne⟩⟩
    · have h0 : s2.jobData = [] := by
        cases hjd : s2.jobData with
        | nil => rfl
        | cons a l => rw [hjd] at hl; simp at hl
      rw [if_neg hl] at h1
      have hv2 : v.jobs = .noJobsFound := (Except.ok.inj h1).symm
      rw [hv2]
      exact ⟨⟨fun h => (by obtain ⟨cs, hcs⟩ := h; cases hcs), fun h => absurd h0 h⟩,
        ⟨fun _ => h0, fun _ => rfl⟩⟩
  · intro s2 hwf
    have hcards : ∃ cs, renderCards (s2.jobData.take s2.jobsToShow) = .ok cs := by
      apply renderCards_ok_of_forall
      intro j hj
      have hj2 := hwf j (List.mem_of_mem_take hj)
      cases htt : j.title with
      | none => rw [htt] at hj2; simp at hj2
      | some t =>
        cases hdd : j.description with
        | none => rw [hdd] at hj2; simp at hj2
        | some d =>
          cases hi : includes t SENTINEL with
          | true => exact ⟨.placeholder t j.description, by simp [renderCard, htt, hi]⟩
          | false =>
            exact renderCard_ok_of_isReal j (by simp [Job.isReal, htt, hdd, hi])
    obtain ⟨cs, hcs⟩ := hcards
    obtain ⟨b, hb, -⟩ := showMore_rendered_iff_aux s2.jobData s2.jobsToShow
      (fun j hj => (hwf j hj).1)
    have hsec : ∃ sec, renderJobSection s2.jobData s2.jobsToShow = .ok sec := by
      unfold renderJobSection
      by_cases hl : s2.jobData.length > 0
      · rw [if_pos hl, hcs]; exact ⟨_, rfl⟩
      · rw [if_neg hl]; exact ⟨_, rfl⟩
    obtain ⟨sec, hsec⟩ := hsec
    obtain ⟨v, hv, -⟩ := render_ok_of_sections s2 sec b hsec hb
    exact ⟨v, hv⟩

/-- C7 at a concrete input: uploading from a state that shows five jobs with
`jobsToShow = 6` and receiving no jobs shows the global block and no button. -/
theorem empty_job_list_renders_global_block_witness :
    ∃ v, render (handleUpload shownState (answering sampleResponse)).final = .ok v ∧
      v.jobs = .noJobsFound ∧ v.showMoreButton = false :=
  (empty_job_list_renders_global_block shownState (answering sampleResponse) cvFile
    sampleResponse rfl rfl rfl).1

/-- C10 as stated fails: the only item has no description, it is among the
rendered items, and the view renders (as a placeholder card with an empty
subtext) instead of raising an error. -/
theorem absent_description_on_sentinel_renders :
    bareSentinelState.jobData ≠ [] ∧ 1 ≤ bareSentinelState.jobsToShow ∧
    (∃ j ∈ bareSentinelState.jobData.take bareSentinelState.jobsToShow,
      j.title = none ∨ j.description = none) ∧
    render bareSentinelState =
      .ok { uploadDisabled := false, uploadLabel := "Upload Resume", resumeTable := none,
            jobs := .grid [.placeholder (utf16 "NO JOBS FOUND") none],
            showMoreButton := false } := by
  refine ⟨by decide, by decide, ⟨bareSentinel, by decide, Or.inr rfl⟩, rfl⟩

/-- C10 amended: for a non-empty `jobData` and `jobsToShow ≥ 1`, if one of the
leading `jobsToShow` items has no title, or has a title without
`"NO JOBS FOUND"` and no description, then rendering raises a `TypeError`. -/
theorem malformed_rendered_item_raises (s : AppState) (j : Job)
    (hne : s.jobData ≠ []) (_hk : 1 ≤ s.jobsToShow)
    (hj : j ∈ s.jobData.take s.jobsToShow)
    (hbad : j.title = none ∨
      (∃ t, j.title = some t ∧ ¬ SENTINEL <:+: t ∧ j.description = none)) :
    render s = .error .typeError := by
  have hcard : renderCard j = .error .typeError := by
    rcases hbad with h | ⟨t, h1, h2, h3⟩
    · simp [renderCard, h]
    · have hi : includes t SENTINEL = false := (includes_eq_false_iff t SENTINEL).2 h2
      simp [renderCard, h1, hi, h3]
  have hcards := renderCards_error_of_mem _ j hj hcard
  have hl : s.jobData.length > 0 := List.length_pos.2 hne
  simp [render, renderJobSection, hl, hcards]

/-- C10 amended, at a list whose second item is a real listing without
description: the render raises. -/
theorem malformed_rendered_item_raises_witness :
    render noDescriptionState = .error .typeError :=
  malformed_rendered_item_raises noDescriptionState noDescriptionJob (by decide) (by decide)
    (by decide) (Or.inr ⟨utf16 "Engineer", rfl, (includes_eq_false_iff _ _).1 (by decide), rfl⟩)

/-! ## Pagination -/

/-- C2: for a list of `n ≥ 1` real listings, starting at `jobsToShow = 3` and
clicking show-more `k` times, `jobsToShow` is `3 + 3k`, the view renders, its
cards are the cards of the first `min (3 + 3k) n` items in order (so at most
`n`), and the button is present exactly when `n > 3 + 3k`. -/
theorem pagination_over_fixed_list (s : AppState) (k : Nat)
    (hn : 1 ≤ s.jobData.length) (h3 : s.jobsToShow = 3)
    (hreal : ∀ j ∈ s.jobData, j.isReal = true) :
    (showMore^[k] s).jobsToShow = 3 + 3 * k ∧
    (showMore^[k] s).jobData = s.jobData ∧
    ∃ v cards, render (showMore^[k] s) = .ok v ∧ v.jobs = .grid cards ∧
      cards.length = min (3 + 3 * k) s.jobData.length ∧
      cards.length ≤ s.jobData.length ∧
      List.Forall₂ (fun j c => renderCard j = .ok c)
        (s.jobData.take (min (3 + 3 * k) s.jobData.length)) cards ∧
      (v.showMoreButton = true ↔ s.jobData.length > 3 + 3 * k) := by
  have hiter : ∀ m : Nat, (showMore^[m] s).jobsToShow = 3 + 3 * m ∧
      (showMore^[m] s).jobData = s.jobData := by
    intro m
    induction m with
    | zero => exact ⟨h3, rfl⟩
    | succ m ih =>
      rw [Function.iterate_succ_apply']
      refine ⟨?_, ?_⟩
      · show (showMore^[m] s).jobsToShow + 3 = 3 + 3 * (m + 1)
        rw [ih.1]; ring
      · exact ih.2
  obtain ⟨hcount, hdata⟩ := hiter k
  refine ⟨hcount, hdata, ?_⟩
  have htake : s.jobData.take (min (3 + 3 * k) s.jobData.length) = s.jobData.take (3 + 3 * k) := by
    rw [List.take_eq_take]
    simp
  obtain ⟨cs, hcs⟩ := renderCards_ok_of_forall (s.jobData.take (3 + 3 * k))
    (fun j hj => renderCard_ok_of_isReal j (hreal j (List.mem_of_mem_take hj)))
  have hfa := (renderCards_ok_iff _ _).1 hcs
  have hlen : cs.length = min (3 + 3 * k) s.jobData.length := by
    rw [← hfa.length_eq, List.length_take]
  have htitles : ∀ j ∈ s.jobData, j.title.isSome = true := by
    intro j hj
    have h := hreal j hj
    unfold Job.isReal at h
    cases ht : j.title with
    | none => simp [ht] at h
    | some t => rfl
  obtain ⟨b, hb, hiff⟩ := showMore_rendered_iff_aux s.jobData (3 + 3 * k) htitles
  have hpos : s.jobData.length > 0 := hn
  have hsec : renderJobSection (showMore^[k] s).jobData (showMore^[k] s).jobsToShow
      = .ok (.grid cs) := by
    rw [hdata, hcount]
    simp [renderJobSection, hpos, hcs]
  have hbtn : renderShowMore (showMore^[k] s).jobData (showMore^[k] s).jobsToShow = .ok b := by
    rw [hdata, hcount]; exact hb
  obtain ⟨v, hv, hvj, hvb, -⟩ := render_ok_of_sections _ _ _ hsec hbtn
  refine ⟨v, cs, hv, hvj, hlen, ?_, ?_, ?_⟩
  · rw [hlen]; exact Nat.min_le_right _ _
  · rw [htake]; exact hfa
  · rw [hvb, hiff]
    constructor
    · intro h; exact h.1
    · intro h
      refine ⟨h, ?_⟩
      cases hjd : s.jobData with
      | nil => rw [hjd] at hn; simp at hn
      | cons a l =>
        have ha := hreal a (by rw [hjd]; exact List.mem_cons_self _ _)
        unfold Job.isReal at ha
        cases ht : a.title with
        | none => simp [ht] at ha
        | some t =>
          cases hd : a.description with
          | none => simp [ht, hd] at ha
          | some d =>
            simp [ht, hd] at ha
            exact ⟨a, List.mem_cons_self _ _, t, ht, ha⟩

/-- C2 at five listings: before any click three cards and the button; after
one click `jobsToShow = 6`, five cards and no button. -/
theorem pagination_over_fixed_list_witness :
    (∃ v cards, render fiveState = .ok v ∧ v.jobs = .grid cards ∧ cards.length = 3 ∧
      v.showMoreButton = true) ∧
    (showMore fiveState).jobsToShow = 6 ∧
    (∃ v cards, render (showMore fiveState) = .ok v ∧ v.jobs = .grid cards ∧ cards.length = 5 ∧
      v.showMoreButton = false) := by
  have h0 := pagination_over_fixed_list fiveState 0 (by decide) rfl (by decide)
  have h1 := pagination_over_fixed_list fiveState 1 (by decide) rfl (by decide)
  obtain ⟨-, -, v0, c0, hv0, hj0, hl0, -, -, hb0⟩ := h0
  obtain ⟨hc1, -, v1, c1, hv1, hj1, hl1, -, -, hb1⟩ := h1
  refine ⟨⟨v0, c0, hv0, hj0, hl0, hb0.2 (by decide)⟩, hc1, ⟨v1, c1, hv1, hj1, hl1, ?_⟩⟩
  cases hb : v1.showMoreButton with
  | false => rfl
  | true => exact absurd (hb1.1 hb) (by decide)

/-! ## Resume table -/

theorem replaceUpper_eq_flatten (key : JSString) :
    replaceUpper key = (key.map fun c => if isUpperAZ c = true then [32, c] else [c]).flatten := by
  induction key with
  | nil => rfl
  | cons c cs ih =>
    by_cases hc : isUpperAZ c = true
    · simp [replaceUpper, hc, ih]
    · simp [replaceUpper, hc, ih]

theorem flatten_enumFrom_succ (cs : JSString) (n : Nat) :
    ((List.enumFrom (n + 1) cs).map fun p =>
        if p.1 ≠ 0 ∧ isUpperAZ p.2 = true then [32, p.2] else [p.2]).flatten
      = replaceUpper cs := by
  induction cs generalizing n with
  | nil => rfl
  | cons c cs ih =>
    by_cases hc : isUpperAZ c = true
    · simp [List.enumFrom, replaceUpper, hc, ih]
    · simp [List.enumFrom, replaceUpper, hc, ih]

theorem replaceUpper_eq_humanizeInternal (key : JSString) :
    replaceUpper key
      = (if key.head?.map isUpperAZ = some true then [32] else []) ++ humanizeInternal key := by
  cases key with
  | nil => rfl
  | cons c cs =>
    have ht := flatten_enumFrom_succ cs 0
    simp only [Nat.zero_add] at ht
    by_cases hc : isUpperAZ c = true
    · simp [humanizeInternal, List.enum, List.enumFrom, replaceUpper, hc, ht]
    · simp [humanizeInternal, List.enum, List.enumFrom, replaceUpper, hc, ht]

/-- C5: after a successful upload whose `resume_data` is an object, the resume
table has one row per entry, in the order of `Object.entries`; the value cell
is the elements joined with `", "` for an array and the string itself
otherwise. -/
theorem resume_table_rows (s : AppState) (post : Request → Outcome) (f : File) (r : Response)
    (rd : ResumeData) (hf : s.selectedFile = .file f) (hp : post (mkRequest f) = .success r)
    (hrd : r.resume_data = some rd) :
    ∃ rows, renderResumeTable (handleUpload s post).final.resumeData = some rows ∧
      (∀ v, render (handleUpload s post).final = .ok v → v.resumeTable = some rows) ∧
      rows.length = rd.length ∧
      List.Forall₂ (fun e row => row.label = replaceUpper e.1 ∧
          row.value = (match e.2 with
            | .scalar x => x
            | .seq xs => List.intercalate (utf16 ", ") xs)) rd rows := by
  have hfin : (handleUpload s post).final.resumeData = some rd := by
    simp [handleUpload, hf, hp, settle, hrd]
  refine ⟨rd.map renderRow, by rw [hfin]; rfl, ?_, List.length_map _ _, ?_⟩
  · intro v hv
    rw [(render_ok_inv _ v hv).2.2.1, hfin]
    rfl
  · rw [List.forall₂_map_right_iff]
    apply List.forall₂_same.2
    intro e _
    refine ⟨rfl, ?_⟩
    cases h2 : e.2 with
    | scalar x => simp [renderRow, renderValue, h2]
    | seq xs => simp [renderRow, renderValue, h2, joinWith_eq_intercalate]

/-- C5 at `resume_data = {a: "x", tags: ["p","q"]}`: two rows, with values
`"x"` and `"p, q"`. -/
theorem resume_table_rows_witness :
    ∃ rows, renderResumeTable
        (handleUpload shownState (answering sampleResponse)).final.resumeData = some rows ∧
      rows = [{ label := utf16 "a", value := utf16 "x" },
              { label := utf16 "tags", value := utf16 "p, q" }] := by
  obtain ⟨rows, h, -, -, -⟩ := resume_table_rows shownState (answering sampleResponse) cvFile
    sampleResponse _ rfl rfl rfl
  refine ⟨rows, h, ?_⟩
  have h2 : renderResumeTable (handleUpload shownState (answering sampleResponse)).final.resumeData
      = some [{ label := utf16 "a", value := utf16 "x" },
              { label := utf16 "tags", value := utf16 "p, q" }] := by decide
  rw [h] at h2
  exact Option.some.inj h2

/-- C8 as stated fails: for the key `Name` the label is `" Name"`, with a space
before the first character, where the claim gives `"Name"`. -/
theorem label_of_capitalised_key_has_leading_space :
    (renderRow (utf16 "Name", .scalar (utf16 "Asha"))).label = utf16 " Name" ∧
    humanizeInternal (utf16 "Name") = utf16 "Name" ∧
    (renderRow (utf16 "Name", .scalar (utf16 "Asha"))).label ≠ humanizeInternal (utf16 "Name") := by
  decide

/-- C8 amended: the label is the key with one space inserted immediately before
every letter `A`-`Z`, the first character included, and nothing else added,
removed or changed; it is the text of the claim preceded by a space when the
key begins with `A`-`Z`, and the text of the claim otherwise; `fullName` gives
`"full Name"`. -/
theorem label_inserts_space_before_every_upper (key : JSString) (v : ResumeValue) :
    (renderRow (key, v)).label
      = (key.map fun c => if isUpperAZ c = true then [32, c] else [c]).flatten ∧
    (renderRow (key, v)).label
      = (if key.head?.map isUpperAZ = some true then [32] else []) ++ humanizeInternal key ∧
    (renderRow (utf16 "fullName", v)).label = utf16 "full Name" := by
  refine ⟨replaceUpper_eq_flatten key, replaceUpper_eq_humanizeInternal key, ?_⟩
  show replaceUpper (utf16 "fullName") = utf16 "full Name"
  decide

end App
